import Mathlib

/-!
# Verification of the `vite-plugin-hono` middleware and build hooks

Shallow embedding of the plugin implementation (the TypeScript module that
defines `honoPlugin`): the dev-server request-forwarding middleware
(`handleRequest` together with its helpers `toHeaderValue`,
`toSingleHeaderValue`, `readBody`, `loadHonoApp`), the wrapper-file
lifecycle driven by the `configResolved` / `buildStart` / `closeBundle`
hooks, and the deployment file copier `copyDeployFiles`.

Modelling conventions:

* JavaScript strings are modelled as `List Char` (`JStr`); `js` converts a
  Lean string literal.  JS `slice`, `startsWith`, truthiness of strings and
  `Array.prototype.join` are translated to the corresponding list
  operations.
* The WHATWG `URL` constructor is modelled by `mkURL` / `resolveRef` for
  the reference shapes the middleware produces: origin-form request
  targets, protocol-relative references (`//authority/path`) and plain
  relative references, with the query split at the first `?`.  The model
  does not perform percent-decoding, dot-segment removal, case folding of
  scheme/host, default-port elision, or the opaque-origin rule for
  non-special schemes; claims are settled relative to this model.  An
  invalid base (empty/ill-formed scheme or empty host) makes `mkURL`
  return `none`, mirroring the constructor throwing.
* Node streams are materialised: an incoming request carries the list of
  its data chunks plus a flag for an `error` event preceding `end`; a
  `Response` body is either `null` (`none`) or the list of chunks its
  reader yields.  `FetchResponse` materialises a body whose relay
  succeeds; the refined `StreamResponse`/`StreamBody` additionally model
  a body stream whose read rejects mid-relay, and `relayPhase` embeds the
  `try`/`catch` around the relay together with the `ServerResponse`
  headers-already-sent state, under which the catch's `writeHead(500)`
  itself throws (`ERR_HTTP_HEADERS_SENT`) and the invocation ends as an
  unhandled rejection.
* The observable behaviour of one middleware invocation is a trace of
  events (`Ev`): calling `next`, setting a header, writing the head,
  writing a body chunk, ending the response, or crashing with an unhandled
  rejection (a throw outside the `try` block of `handleRequest`).
-/

/-- JavaScript strings, modelled as lists of characters. -/
abbrev JStr := List Char

/-- Embed a Lean string literal as a `JStr`. -/
def js (s : String) : JStr := s.toList

/-- A Node `req.headers` value: a single string or an array of strings
(absence of the key is modelled by `Option` at the lookup site). -/
inductive HeaderValue where
  | str (s : JStr)
  | arr (l : List JStr)
deriving DecidableEq

/-- JS `Array.prototype.join(sep)` on string arrays. -/
def joinSep (sep : JStr) : List JStr → JStr
  | [] => []
  | [x] => x
  | x :: y :: xs => x ++ sep ++ joinSep sep (y :: xs)

/-- Source `toHeaderValue`: a string is returned as is; an array is reduced
to its non-empty string entries joined with `", "`, or `undefined` when no
such entry exists; `undefined` stays `undefined`. -/
def toHeaderValue : Option HeaderValue → Option JStr
  | some (.str s) => some s
  | some (.arr l) =>
    let parts := l.filter (fun entry => !entry.isEmpty)
    if parts.isEmpty then none else some (joinSep (js ", ") parts)
  | none => none

/-- First non-empty entry of a string array (helper for
`toSingleHeaderValue`'s loop). -/
def firstNonEmpty : List JStr → Option JStr
  | [] => none
  | entry :: rest => if entry.isEmpty then firstNonEmpty rest else some entry

/-- Source `toSingleHeaderValue`: a string is returned as is (even when
empty); for an array, the first non-empty entry; otherwise `undefined`. -/
def toSingleHeaderValue : Option HeaderValue → Option JStr
  | some (.str s) => some s
  | some (.arr l) => firstNonEmpty l
  | none => none

/-- Split a string at its first `?`: the part before it and the part after
it (the raw query).  When there is no `?`, the query part is empty — the
WHATWG `search` getter likewise returns the empty string both for a
missing query and for an empty one. -/
def splitQuery : JStr → JStr × JStr
  | [] => ([], [])
  | c :: cs =>
    if c = '?' then ([], cs)
    else
      let pq := splitQuery cs
      (c :: pq.1, pq.2)

/-- The `search` component produced from a raw query: empty when the query
is empty, otherwise `?` followed by it. -/
def mkSearch (q : JStr) : JStr := if q.isEmpty then [] else '?' :: q

/-- RFC 3986 scheme character (after the leading letter). -/
def isSchemeChar (c : Char) : Bool := c.isAlphanum || c = '+' || c = '-' || c = '.'

/-- A syntactically valid URL scheme: a letter followed by scheme
characters.  `mkURL` fails on an invalid scheme, mirroring the `URL`
constructor throwing on an ill-formed base such as `"://host"`. -/
def validScheme : JStr → Bool
  | [] => false
  | c :: rest => c.isAlpha && rest.all isSchemeChar

/-- The parsed-URL fields the middleware reads: scheme, host (authority),
pathname and search. -/
structure SimpleURL where
  scheme : JStr
  host : JStr
  pathname : JStr
  search : JStr
deriving DecidableEq

/-- `url.origin`, modelled as `scheme://host` (no case folding or
default-port elision). -/
def origin (u : SimpleURL) : JStr := u.scheme ++ js "://" ++ u.host

/-- Resolution of a reference string against a base with the given scheme
and host (and path `/`, which is all the middleware ever uses as a base):
`//authority/...` replaces the authority (extra leading slashes skipped,
as in the WHATWG "special authority ignore slashes" state), `/...` is an
absolute path, the empty reference yields the base itself, and anything
else is a relative path resolved against `/`. -/
def resolveRef (ref : JStr) (baseScheme baseHost : JStr) : SimpleURL :=
  if ref.take 2 = js "//" then
    let rest := ref.dropWhile (fun c => c = '/')
    let auth := rest.takeWhile (fun c => c != '/' && c != '?')
    let tail := rest.drop auth.length
    let pq := splitQuery tail
    { scheme := baseScheme
      host := if auth.isEmpty then baseHost else auth
      pathname := if pq.1.isEmpty then js "/" else pq.1
      search := mkSearch pq.2 }
  else
    match ref with
    | [] => { scheme := baseScheme, host := baseHost, pathname := js "/", search := [] }
    | c :: _ =>
      let pq := splitQuery ref
      if c = '/' then
        { scheme := baseScheme, host := baseHost, pathname := pq.1, search := mkSearch pq.2 }
      else
        { scheme := baseScheme, host := baseHost, pathname := '/' :: pq.1, search := mkSearch pq.2 }

/-- `new URL(ref, scheme + "://" + host)`: fails (the constructor throws)
when the base is invalid — ill-formed scheme or empty host — and otherwise
resolves `ref` against the base. -/
def mkURL (ref scheme host : JStr) : Option SimpleURL :=
  if validScheme scheme && !host.isEmpty then some (resolveRef ref scheme host) else none

/-- An incoming Node `IncomingMessage` as the middleware observes it:
`url` and `method` (possibly `undefined`), the header map (Node lowercases
keys and joins duplicates, so an assoc list), the list of `data` chunks
(Buffers modelled as character lists) and whether an `error` event fires
before `end`. -/
structure NodeRequest where
  urlProp : Option JStr
  methodProp : Option JStr
  headers : List (JStr × HeaderValue)
  bodyChunks : List JStr
  bodyError : Bool
deriving DecidableEq

/-- JS truthiness test used by `if (!req.url || !req.method)`: `undefined`
and the empty string are falsy. -/
def falsyStr : Option JStr → Bool
  | none => true
  | some s => s.isEmpty

/-- Property access `req.headers[key]` (absent key is `undefined`). -/
def lookupHeader (req : NodeRequest) (key : JStr) : Option HeaderValue :=
  (req.headers.find? (fun kv => kv.1 == key)).map (fun kv => kv.2)

/-- The scheme the middleware picks:
`toSingleHeaderValue(req.headers['x-forwarded-proto']) ?? 'http'`. -/
def schemeOf (req : NodeRequest) : JStr :=
  (toSingleHeaderValue (lookupHeader req (js "x-forwarded-proto"))).getD (js "http")

/-- The authority the middleware picks:
`toSingleHeaderValue(req.headers.host) ?? 'localhost:5173'`. -/
def hostOf (req : NodeRequest) : JStr :=
  (toSingleHeaderValue (lookupHeader req (js "host"))).getD (js "localhost:5173")

/-- `new URL(req.url, protocol + "://" + host)` as performed on lines
476–478 of the plugin (outside the `try` block). -/
def reconstructURL (req : NodeRequest) : Option SimpleURL :=
  mkURL (req.urlProp.getD []) (schemeOf req) (hostOf req)

/-- `Headers.set`: the name is lowercased and an existing entry with that
name is replaced, otherwise the pair is appended.  (Header-name validation
is outside the model.) -/
def headersSet (hs : List (JStr × JStr)) (key value : JStr) : List (JStr × JStr) :=
  let k := key.map Char.toLower
  if hs.any (fun kv => kv.1 == k) then
    hs.map (fun kv => if kv.1 == k then (k, value) else kv)
  else hs ++ [(k, value)]

/-- The truthiness filter of the header loop: `headers.set` runs only when
`toHeaderValue` produced a truthy (non-empty) string. -/
def forwardHeaderValue (v : Option HeaderValue) : Option JStr :=
  match toHeaderValue v with
  | some s => if s.isEmpty then none else some s
  | none => none

/-- The header-marshalling loop of `handleRequest`: for each entry of
`req.headers` in order, set the normalised value when it is truthy. -/
def forwardHeaders (hs : List (JStr × HeaderValue)) : List (JStr × JStr) :=
  hs.foldl
    (fun acc kv =>
      match forwardHeaderValue (some kv.2) with
      | some v => headersSet acc kv.1 v
      | none => acc)
    []

/-- Source `readBody`: `GET`/`HEAD` resolve immediately with no body;
otherwise an `error` event rejects, the empty chunk list resolves with no
body, and a non-empty one resolves with the concatenation of the chunks
(`Buffer.concat`). -/
def readBody (req : NodeRequest) : Except Unit (Option JStr) :=
  if req.methodProp == some (js "GET") || req.methodProp == some (js "HEAD") then
    .ok none
  else if req.bodyError then .error ()
  else if req.bodyChunks.isEmpty then .ok none
  else .ok (some req.bodyChunks.flatten)

/-- The `Request` handed to the Hono app's `fetch`: its URL, method,
marshalled headers and optional body. -/
structure FetchRequest where
  url : SimpleURL
  method : JStr
  headers : List (JStr × JStr)
  bodyProp : Option JStr
deriving DecidableEq

/-- The `Response` returned by the Hono app: status, headers (the
`Headers` object modelled as the list its iteration yields) and a body
that is `null` or a stream whose reader yields the given chunks. -/
structure FetchResponse where
  status : Nat
  headers : List (JStr × JStr)
  bodyProp : Option (List JStr)
deriving DecidableEq

/-- The shape of `app.fetch`, which may also throw. -/
abbrev HonoFetch := FetchRequest → Except Unit FetchResponse

/-- A JS value as classified by `isHonoApp` (`typeof value === 'object'`,
non-null, with a function-typed `fetch`). -/
inductive JSValue where
  | undef
  | nullVal
  | nonObjVal
  | objNoFetch
  | objWithFetch (fetch : HonoFetch)

/-- Source `isHonoApp`. -/
def isHonoApp : JSValue → Bool
  | .objWithFetch _ => true
  | _ => false

/-- The dev-server environment `loadHonoApp` works against, after its
module-graph/loader fallback chain (`environment` →
`server.environments.server` → legacy `server.moduleGraph` /
`ssrLoadModule`) has been resolved: whether the module graph holds a node
for `/hono/index.ts`, and the `default` export the loader produces
(`.error` when loading itself throws, `.ok .undef` when the export is
missing). -/
structure LoadEnv where
  moduleNode : Option Unit
  loadResult : Except Unit JSValue

/-- Source `loadHonoApp`: invalidate the module node when present, load
the module, and fail unless the default export is a Hono app.  The first
component records whether `invalidateModule` was called. -/
def loadHonoApp (env : LoadEnv) : Bool × Except Unit HonoFetch :=
  (env.moduleNode.isSome,
    match env.loadResult with
    | .error e => .error e
    | .ok v =>
      match v with
      | .objWithFetch f => .ok f
      | _ => .error ())

/-- Observable actions of one middleware invocation, in order. -/
inductive Ev where
  | next
  | crash
  | setHeader (key value : JStr)
  | writeHead (status : Nat) (headers : List (JStr × JStr))
  | write (chunk : JStr)
  | endRes (data : Option JStr)
deriving DecidableEq

/-- `JSON.stringify({ error: 'Internal server error' })`. -/
def errorBody : JStr := js "\x7b\"error\":\"Internal server error\"\x7d"

/-- The catch-branch trace: `res.writeHead(500, { 'Content-Type':
'application/json' }); res.end(JSON.stringify({ error: ... }))`. -/
def error500 : List Ev :=
  [.writeHead 500 [(js "Content-Type", js "application/json")], .endRes (some errorBody)]

/-- Path rewriting inside the `try` block: strip `basePath` from the
pathname (`slice(basePath.length)`), substitute `/` for an empty
remainder, append the original search, and resolve against
`incomingUrl.origin`. -/
def targetURL (basePath : JStr) (u : SimpleURL) : SimpleURL :=
  let rem := u.pathname.drop basePath.length
  let stripped := if rem.isEmpty then js "/" else rem
  resolveRef (stripped ++ u.search) u.scheme u.host

/-- The `Request` constructed in `handleRequest` (URL, method, marshalled
headers, awaited body); fails when reading the body rejects. -/
def forwardedRequest (basePath : JStr) (req : NodeRequest) (u : SimpleURL) :
    Except Unit FetchRequest :=
  match readBody req with
  | .error e => .error e
  | .ok b =>
    .ok { url := targetURL basePath u
          method := req.methodProp.getD []
          headers := forwardHeaders req.headers
          bodyProp := b }

/-- The response relay: copy every response header, write the head with the
response status, stream the body chunks in order (nothing for a `null`
body), then end. -/
def relayResponse (resp : FetchResponse) : List Ev :=
  resp.headers.map (fun kv => Ev.setHeader kv.1 kv.2)
    ++ [Ev.writeHead resp.status []]
    ++ (match resp.bodyProp with
        | none => []
        | some chunks => chunks.map Ev.write)
    ++ [Ev.endRes none]

/-- The `try` block of `handleRequest`: load the app, build the Request,
invoke `fetch`, relay the response; `.error` when any of these throws. -/
def tryBlock (basePath : JStr) (env : LoadEnv) (req : NodeRequest) (u : SimpleURL) :
    Except Unit (List Ev) :=
  match (loadHonoApp env).2 with
  | .error e => .error e
  | .ok app =>
    match forwardedRequest basePath req u with
    | .error e => .error e
    | .ok fr =>
      match app fr with
      | .error e => .error e
      | .ok resp => .ok (relayResponse resp)

/-- Source `handleRequest`: pass on requests with a falsy `url` or
`method`; reconstruct the URL (a throw here is outside the `try` block and
surfaces as an unhandled rejection, `.crash`); pass on requests whose
pathname does not start with `basePath`; otherwise run the `try` block and
map any failure to the 500 JSON response. -/
def handleRequest (basePath : JStr) (env : LoadEnv) (req : NodeRequest) : List Ev :=
  if falsyStr req.urlProp || falsyStr req.methodProp then [.next]
  else
    match reconstructURL req with
    | none => [.crash]
    | some u =>
      if basePath.isPrefixOf u.pathname then
        match tryBlock basePath env req u with
        | .ok evs => evs
        | .error _ => error500
      else [.next]

/-- The value of `env.command` captured by the `config` hook. -/
inductive RunCommand where
  | build
  | serve
  | test
  | unknown
deriving DecidableEq

/-- The mutable plugin state relevant to the wrapper-file lifecycle:
the captured command, whether `hono/index.ts` exists, the `wrapperPrimed`
flag, the per-environment `wrapperWritten` map (`environmentState`), plus
the observed world — whether `<root>/.hono-server.mjs` currently exists
and how many times it has been written.  The wrapper content
(`generateWrapper basePath port`) is not modelled; the claims concern the
write/delete lifecycle. -/
structure PluginState where
  runCommand : RunCommand
  hasHonoEntry : Bool
  wrapperPrimed : Bool
  envWritten : List Nat
  wrapperFile : Bool
  writeCount : Nat
deriving DecidableEq

/-- State after the `config` hook of a fresh plugin instance: command and
entry-file presence captured, nothing primed, written or on disk. -/
def initState (cmd : RunCommand) (hasEntry : Bool) : PluginState :=
  { runCommand := cmd, hasHonoEntry := hasEntry, wrapperPrimed := false
    envWritten := [], wrapperFile := false, writeCount := 0 }

/-- The lifecycle hooks after `config`; `buildStart`/`closeBundle` carry
the identity of `this.environment` when it is an object. -/
inductive Hook where
  | configResolved
  | buildStart (envId : Option Nat)
  | closeBundle (envId : Option Nat)
deriving DecidableEq

/-- `writeFileSync(wrapperPath, generateWrapper(...))` followed by
`wrapperPrimed = true`. -/
def writeWrapper (s : PluginState) : PluginState :=
  { s with wrapperPrimed := true, wrapperFile := true, writeCount := s.writeCount + 1 }

/-- `removeWrapper` in `closeBundle`: unlink the file when it exists and
always reset `wrapperPrimed` (the `finally` clause). -/
def removeWrapper (s : PluginState) : PluginState :=
  { s with wrapperFile := false, wrapperPrimed := false }

/-- One hook invocation.  `configResolved` writes the wrapper when the
command is `build`, the entry exists and the wrapper is not yet primed.
`buildStart` returns early unless building with an entry and an
environment object, then writes only when its environment has not yet been
marked and the wrapper is not primed.  `closeBundle` without an
environment always removes the wrapper; with one, it removes it only when
that environment was marked, unmarking it. -/
def pluginStep (s : PluginState) : Hook → PluginState
  | .configResolved =>
    if !s.hasHonoEntry then s
    else if s.runCommand = .build && !s.wrapperPrimed then writeWrapper s
    else s
  | .buildStart envId =>
    if s.runCommand ≠ .build || !s.hasHonoEntry then s
    else
      match envId with
      | none => s
      | some e =>
        if e ∈ s.envWritten then s
        else
          let s1 := if !s.wrapperPrimed then writeWrapper s else s
          { s1 with envWritten := e :: s1.envWritten }
  | .closeBundle envId =>
    match envId with
    | none => removeWrapper s
    | some e =>
      if e ∈ s.envWritten then
        removeWrapper { s with envWritten := s.envWritten.erase e }
      else s

/-- Run a sequence of hooks. -/
def runHooks (s : PluginState) : List Hook → PluginState
  | [] => s
  | h :: hs => runHooks (pluginStep s h) hs

/-- A JSON value as produced by `JSON.parse`. -/
inductive JSON where
  | nullVal
  | boolVal (b : Bool)
  | numVal (n : Int)
  | strVal (s : String)
  | arrVal (elems : List JSON)
  | objVal (fields : List (String × JSON))

/-- Source `isJsonRecord` on parsed JSON: `typeof value === 'object'`,
non-null and not an array — exactly the object case. -/
def isJsonRecord : JSON → Bool
  | .objVal _ => true
  | _ => false

/-- The replacement `scripts` object `{ start: 'node server.js' }`. -/
def startScripts : JSON := .objVal [("start", .strVal "node server.js")]

/-- JS object spread `{ ...fields, key: v }`: an existing key keeps its
position with the new value, a fresh key is appended.  (A field list
models a JS object, whose keys are unique.) -/
def setField : List (String × JSON) → String → JSON → List (String × JSON)
  | [], key, v => [(key, v)]
  | kv :: rest, key, v =>
    if kv.1 = key then (key, v) :: rest else kv :: setField rest key v

/-- The working directory as `copyDeployFiles` reads it: `package.json`
(absent, unparsable, or parsed JSON) and the four lockfiles as raw bytes
when present. -/
structure WorkDir where
  packageJson : Option (Except Unit JSON)
  packageLock : Option String
  pnpmLock : Option String
  yarnLock : Option String
  bunLockb : Option String

/-- The target directory `copyDeployFiles` produces: the written
`package.json` value (serialisation via `JSON.stringify` is abstracted to
the JSON value) and the copied lockfiles. -/
structure TargetDir where
  packageJson : Option JSON
  packageLock : Option String
  pnpmLock : Option String
  yarnLock : Option String
  bunLockb : Option String

/-- Source `copyDeployFiles`: `package.json`, when present, must parse to
a JSON record (else the call throws — either `JSON.parse` or the explicit
`Invalid package.json structure` error) and is written with its `scripts`
field replaced by `{ start: 'node server.js' }`; each lockfile is copied
byte-for-byte when present and skipped otherwise. -/
def copyDeployFiles (wd : WorkDir) : Except Unit TargetDir :=
  match
    (match wd.packageJson with
     | none => Except.ok none
     | some (.error _) => Except.error ()
     | some (.ok j) =>
       match j with
       | .objVal fields => Except.ok (some (JSON.objVal (setField fields "scripts" startScripts)))
       | _ => Except.error ()) with
  | .error e => .error e
  | .ok pkg =>
    .ok { packageJson := pkg
          packageLock := wd.packageLock
          pnpmLock := wd.pnpmLock
          yarnLock := wd.yarnLock
          bunLockb := wd.bunLockb }

/-- Field lookup in a JSON object. -/
def lookupField (fields : List (String × JSON)) (key : String) : Option JSON :=
  (fields.find? (fun kv => kv.1 == key)).map (fun kv => kv.2)

/-- Modelled from the spec sentence behind C3 ("the first non-empty string
entry of the header"): the claim-side reading of a header value, to be
compared with the code's `toSingleHeaderValue`. -/
def specFirstNonEmpty : Option HeaderValue → Option JStr
  | none => none
  | some (.str s) => if s.isEmpty then none else some s
  | some (.arr l) => firstNonEmpty l

/-- The claim-side scheme choice of C3: first non-empty entry, `http`
otherwise. -/
def specSchemeOf (req : NodeRequest) : JStr :=
  (specFirstNonEmpty (lookupHeader req (js "x-forwarded-proto"))).getD (js "http")

/-- Well-formedness of a `search` component as `mkURL` produces it: empty,
or `?` followed by a non-empty query. -/
def searchWF (s : JStr) : Prop := s = [] ∨ ∃ q, q ≠ [] ∧ s = '?' :: q

theorem splitQuery_fst_no_qmark (l : JStr) : '?' ∉ (splitQuery l).1 := by
  induction l with
  | nil => simp [splitQuery]
  | cons c cs ih =>
    by_cases hc : c = '?'
    · simp [splitQuery, hc]
    · simp only [splitQuery, if_neg hc]
      intro hmem
      rcases List.mem_cons.mp hmem with h | h
      · exact hc h.symm
      · exact ih h

theorem splitQuery_of_no_qmark {l : JStr} (h : '?' ∉ l) : splitQuery l = (l, []) := by
  induction l with
  | nil => rfl
  | cons c cs ih =>
    have hc : c ≠ '?' := fun hc => h (hc ▸ List.mem_cons_self c cs)
    have hcs : '?' ∉ cs := fun hm => h (List.mem_cons_of_mem c hm)
    simp [splitQuery, fun hq => hc hq, ih hcs]

theorem splitQuery_append {a : JStr} (b : JStr) (h : '?' ∉ a) :
    splitQuery (a ++ b) = (a ++ (splitQuery b).1, (splitQuery b).2) := by
  induction a with
  | nil => simp
  | cons c cs ih =>
    have hc : c ≠ '?' := fun hc => h (hc ▸ List.mem_cons_self c cs)
    have hcs : '?' ∉ cs := fun hm => h (List.mem_cons_of_mem c hm)
    simp [splitQuery, fun hq => hc hq, ih hcs]

theorem mkSearch_wf (q : JStr) : searchWF (mkSearch q) := by
  by_cases hq : q.isEmpty
  · exact Or.inl (by simp [mkSearch, hq])
  · exact Or.inr ⟨q, by simpa using hq, by simp [mkSearch, hq]⟩


theorem resolveRef_nil (s h : JStr) :
    resolveRef [] s h =
      { scheme := s, host := h, pathname := js "/", search := [] } := rfl

theorem resolveRef_protorel (rest s h : JStr) :
    resolveRef ('/' :: '/' :: rest) s h =
      (let stripped := ('/' :: '/' :: rest).dropWhile (fun c => c = '/')
       let auth := stripped.takeWhile (fun c => c != '/' && c != '?')
       let pq := splitQuery (stripped.drop auth.length)
       { scheme := s
         host := if auth.isEmpty then h else auth
         pathname := if pq.1.isEmpty then js "/" else pq.1
         search := mkSearch pq.2 }) := by
  have h2 : List.take 2 ('/' :: '/' :: rest) = js "//" := rfl
  unfold resolveRef
  rw [if_pos h2]

theorem resolveRef_abs (cs s h : JStr) (h1 : cs.take 1 ≠ js "/") :
    resolveRef ('/' :: cs) s h =
      { scheme := s, host := h, pathname := (splitQuery ('/' :: cs)).1
        search := mkSearch (splitQuery ('/' :: cs)).2 } := by
  have h2 : List.take 2 ('/' :: cs) ≠ js "//" := by
    intro hcontra
    apply h1
    have : '/' :: cs.take 1 = '/' :: ['/'] := hcontra
    exact List.cons_injective this
  unfold resolveRef
  rw [if_neg h2]
  rfl

theorem resolveRef_rel (c : Char) (cs s h : JStr) (hc : c ≠ '/') :
    resolveRef (c :: cs) s h =
      { scheme := s, host := h, pathname := '/' :: (splitQuery (c :: cs)).1
        search := mkSearch (splitQuery (c :: cs)).2 } := by
  have h2 : List.take 2 (c :: cs) ≠ js "//" := by
    intro hcontra
    apply hc
    have : c :: cs.take 1 = '/' :: ['/'] := hcontra
    exact (List.cons_eq_cons.mp this).1
  unfold resolveRef
  rw [if_neg h2]
  simp only [if_neg hc]

theorem resolveRef_wf (ref s h : JStr) :
    '?' ∉ (resolveRef ref s h).pathname ∧ searchWF (resolveRef ref s h).search := by
  rcases ref with _ | ⟨c, cs⟩
  · rw [resolveRef_nil]
    exact ⟨by simp [js], Or.inl rfl⟩
  · by_cases hc : c = '/'
    · subst hc
      rcases cs with _ | ⟨d, rest⟩
      · rw [resolveRef_abs _ _ _ (by simp [js])]
        refine ⟨?_, ?_⟩
        · show '?' ∉ (splitQuery ['/']).1
          exact splitQuery_fst_no_qmark _
        · show searchWF (mkSearch (splitQuery ['/']).2)
          exact mkSearch_wf _
      · by_cases hd : d = '/'
        · subst hd
          rw [resolveRef_protorel]
          refine ⟨?_, ?_⟩
          · show '?' ∉ (if _ = true then js "/" else _)
            split
            · simp [js]
            · exact splitQuery_fst_no_qmark _
          · show searchWF (mkSearch _)
            exact mkSearch_wf _
        · rw [resolveRef_abs _ _ _ (by simp [js, List.take, hd])]
          refine ⟨?_, ?_⟩
          · show '?' ∉ (splitQuery ('/' :: d :: rest)).1
            exact splitQuery_fst_no_qmark _
          · show searchWF (mkSearch (splitQuery ('/' :: d :: rest)).2)
            exact mkSearch_wf _
    · rw [resolveRef_rel _ _ _ _ hc]
      refine ⟨?_, ?_⟩
      · show '?' ∉ '/' :: (splitQuery (c :: cs)).1
        intro hmem
        rcases List.mem_cons.mp hmem with hh | hh
        · exact absurd hh.symm (by simp)
        · exact splitQuery_fst_no_qmark (c :: cs) hh
      · show searchWF (mkSearch (splitQuery (c :: cs)).2)
        exact mkSearch_wf _

theorem resolveRef_scheme_eq (ref s h : JStr) : (resolveRef ref s h).scheme = s := by
  rcases ref with _ | ⟨c, cs⟩
  · rw [resolveRef_nil]
  · by_cases hc : c = '/'
    · subst hc
      rcases cs with _ | ⟨d, rest⟩
      · rw [resolveRef_abs _ _ _ (by simp [js])]
      · by_cases hd : d = '/'
        · subst hd
          rw [resolveRef_protorel]
        · rw [resolveRef_abs _ _ _ (by simp [js, List.take, hd])]
    · rw [resolveRef_rel _ _ _ _ hc]

theorem mkURL_eq {ref s h : JStr} {u : SimpleURL} (hu : mkURL ref s h = some u) :
    u = resolveRef ref s h := by
  unfold mkURL at hu
  by_cases hv : validScheme s && !h.isEmpty
  · rw [if_pos hv] at hu
    exact (Option.some_inj.mp hu).symm
  · rw [if_neg hv] at hu
    exact absurd hu (by simp)

theorem targetURL_char (basePath : JStr) (u : SimpleURL)
    (hpre : basePath.isPrefixOf u.pathname = true)
    (hq : '?' ∉ u.pathname)
    (hsw : searchWF u.search)
    (hrem : (u.pathname.drop basePath.length).take 2 ≠ js "//") :
    targetURL basePath u =
      { scheme := u.scheme, host := u.host
        pathname :=
          (if (u.pathname.drop basePath.length).isEmpty then js "/"
           else if (u.pathname.drop basePath.length).take 1 = js "/" then
             u.pathname.drop basePath.length
           else '/' :: u.pathname.drop basePath.length)
        search := u.search } := by
  obtain ⟨t, ht⟩ := List.isPrefixOf_iff_prefix.mp hpre
  have hdrop : u.pathname.drop basePath.length = t := by
    rw [← ht, List.drop_left]
  have hqt : '?' ∉ t := by
    intro hm
    exact hq (by rw [← ht]; exact List.mem_append_right basePath hm)
  have htu : targetURL basePath u =
      resolveRef ((if t.isEmpty then js "/" else t) ++ u.search) u.scheme u.host := by
    show resolveRef ((if (u.pathname.drop basePath.length).isEmpty then js "/"
      else u.pathname.drop basePath.length) ++ u.search) u.scheme u.host = _
    rw [hdrop]
  rw [hdrop] at hrem
  rw [htu, hdrop]
  rcases t with _ | ⟨c, rest⟩
  · rcases hsw with hse | ⟨q, hqne, hseq⟩
    · rw [hse]
      rw [show ((if ([] : JStr).isEmpty then js "/" else []) ++ ([] : JStr)) = ['/'] from rfl]
      rw [resolveRef_abs [] _ _ (by simp [js])]
      simp [splitQuery, mkSearch, hse, js]
    · rw [hseq]
      rw [show ((if ([] : JStr).isEmpty then js "/" else []) ++ ('?' :: q)) =
        '/' :: '?' :: q from rfl]
      rw [resolveRef_abs ('?' :: q) _ _ (by simp [js, List.take])]
      have hsq : splitQuery ('/' :: '?' :: q) = (['/'], q) := by
        simp [splitQuery]
      rw [hsq]
      have hne : q.isEmpty = false := by simpa using hqne
      simp [mkSearch, hne, hseq, js]
  · have hnotemp : (c :: rest).isEmpty = false := rfl
    rw [if_neg (by simp [hnotemp])]
    have hsplit : splitQuery ((c :: rest) ++ u.search) =
        ((c :: rest) ++ (splitQuery u.search).1, (splitQuery u.search).2) :=
      splitQuery_append u.search hqt
    have hsearch1 : (splitQuery u.search).1 = [] ∧ mkSearch (splitQuery u.search).2 = u.search := by
      rcases hsw with hse | ⟨q, hqne, hseq⟩
      · rw [hse]
        exact ⟨rfl, rfl⟩
      · rw [hseq]
        have : splitQuery ('?' :: q) = ([], q) := by simp [splitQuery]
        rw [this]
        have hne : q.isEmpty = false := by simpa using hqne
        simp [mkSearch, hne]
    by_cases hc : c = '/'
    · subst hc
      have htail : (rest ++ u.search).take 1 ≠ js "/" := by
        rcases rest with _ | ⟨d, rest2⟩
        · rcases hsw with hse | ⟨q, hqne, hseq⟩
          · rw [hse]
            simp [js]
          · rw [hseq]
            simp [js, List.take]
        · have hd : d ≠ '/' := by
            intro hd
            apply hrem
            rw [hd]
            rfl
          simp [js, List.take, hd]
      rw [show (('/' :: rest) ++ u.search) = '/' :: (rest ++ u.search) from rfl]
      rw [resolveRef_abs (rest ++ u.search) _ _ htail]
      rw [show ('/' :: (rest ++ u.search)) = (('/' :: rest) ++ u.search) from rfl, hsplit]
      simp only [hsearch1.1, List.append_nil, hsearch1.2]
      simp [js, List.take]
    · rw [show ((c :: rest) ++ u.search) = c :: (rest ++ u.search) from rfl]
      rw [resolveRef_rel c (rest ++ u.search) _ _ hc]
      rw [show (c :: (rest ++ u.search)) = ((c :: rest) ++ u.search) from rfl, hsplit]
      simp only [hsearch1.1, List.append_nil, hsearch1.2]
      have hcc : ¬([c] = js "/") := by simp [js, hc]
      simp [hcc]

theorem mkURL_wf {ref s h : JStr} {u : SimpleURL} (hu : mkURL ref s h = some u) :
    '?' ∉ u.pathname ∧ searchWF u.search := by
  rw [mkURL_eq hu]
  exact resolveRef_wf ref s h

theorem resolveRef_host_eq (ref s h : JStr) (h2 : ref.take 2 ≠ js "//") :
    (resolveRef ref s h).host = h := by
  rcases ref with _ | ⟨c, cs⟩
  · rw [resolveRef_nil]
  · by_cases hc : c = '/'
    · subst hc
      rcases cs with _ | ⟨d, rest⟩
      · rw [resolveRef_abs _ _ _ (by simp [js])]
      · by_cases hd : d = '/'
        · subst hd
          exact absurd rfl h2
        · rw [resolveRef_abs _ _ _ (by simp [js, List.take, hd])]
    · rw [resolveRef_rel _ _ _ _ hc]

theorem mkURL_scheme_host {ref s h : JStr} {u : SimpleURL} (hu : mkURL ref s h = some u)
    (h2 : ref.take 2 ≠ js "//") : u.scheme = s ∧ u.host = h := by
  rw [mkURL_eq hu]
  exact ⟨resolveRef_scheme_eq ref s h, resolveRef_host_eq ref s h h2⟩

theorem joinSep_ne_nil (sep : JStr) (p : JStr) (rest : List JStr) (hp : p ≠ []) :
    joinSep sep (p :: rest) ≠ [] := by
  cases rest with
  | nil => simpa [joinSep] using hp
  | cons y ys => simp [joinSep, hp]

theorem lookupField_setField_self (fields : List (String × JSON)) (key : String) (v : JSON) :
    lookupField (setField fields key v) key = some v := by
  induction fields with
  | nil => simp [setField, lookupField]
  | cons kv rest ih =>
    by_cases hk : kv.1 = key
    · simp only [setField, if_pos hk, lookupField]
      rw [List.find?_cons_of_pos _ (by simp)]
      rfl
    · simp only [setField, if_neg hk, lookupField]
      rw [List.find?_cons_of_neg _ (by simp [hk])]
      exact ih

theorem lookupField_setField_other (fields : List (String × JSON)) (key other : String)
    (v : JSON) (hne : other ≠ key) :
    lookupField (setField fields key v) other = lookupField fields other := by
  have hko : ¬((key == other) = true) := by
    simp only [beq_iff_eq]
    exact Ne.symm hne
  induction fields with
  | nil =>
    simp only [setField, lookupField]
    rw [List.find?_cons_of_neg _ (by exact hko)]
  | cons kv rest ih =>
    by_cases hk : kv.1 = key
    · have hkvo : ¬((kv.1 == other) = true) := by
        simp only [beq_iff_eq, hk]
        exact Ne.symm hne
      simp only [setField, if_pos hk, lookupField]
      rw [List.find?_cons_of_neg _ (by exact hko), List.find?_cons_of_neg _ (by exact hkvo)]
    · by_cases ho : kv.1 = other
      · simp only [setField, if_neg hk, lookupField]
        rw [List.find?_cons_of_pos _ (by simp [ho]), List.find?_cons_of_pos _ (by simp [ho])]
      · simp only [setField, if_neg hk, lookupField]
        rw [List.find?_cons_of_neg _ (by simp [ho]), List.find?_cons_of_neg _ (by simp [ho])]
        exact ih

/-- Invariant for runs that must never write the wrapper: not a build (or
no `hono/index.ts`), nothing written, no file on disk. -/
def NoWrite (s : PluginState) : Prop :=
  (s.runCommand ≠ .build ∨ s.hasHonoEntry = false) ∧ s.writeCount = 0 ∧ s.wrapperFile = false

theorem pluginStep_noWrite (s : PluginState) (h : Hook) (hs : NoWrite s) :
    NoWrite (pluginStep s h) := by
  obtain ⟨hc, hw, hf⟩ := hs
  cases h with
  | configResolved =>
    by_cases he : s.hasHonoEntry
    · have hcmd : s.runCommand ≠ .build := by
        rcases hc with h | h
        · exact h
        · rw [he] at h
          exact absurd h (by simp)
      simp [pluginStep, he, hcmd]
      exact ⟨hc, hw, hf⟩
    · simp only [pluginStep]
      rw [if_pos (by simp [Bool.not_eq_true] at he ⊢; exact he)]
      exact ⟨hc, hw, hf⟩
  | buildStart o =>
    have hguard : (s.runCommand ≠ RunCommand.build || !s.hasHonoEntry) = true := by
      rcases hc with h | h
      · simp [h]
      · simp [h]
    simp only [pluginStep]
    rw [if_pos (by exact_mod_cast hguard)]
    exact ⟨hc, hw, hf⟩
  | closeBundle o =>
    cases o with
    | none =>
      simp only [pluginStep, removeWrapper]
      exact ⟨hc, hw, rfl⟩
    | some e =>
      by_cases hmem : e ∈ s.envWritten
      · simp only [pluginStep]
        rw [if_pos hmem]
        exact ⟨hc, hw, rfl⟩
      · simp only [pluginStep]
        rw [if_neg hmem]
        exact ⟨hc, hw, hf⟩

theorem runHooks_noWrite (s : PluginState) (hooks : List Hook) (hs : NoWrite s) :
    NoWrite (runHooks s hooks) := by
  induction hooks generalizing s with
  | nil => exact hs
  | cons h rest ih => exact ih _ (pluginStep_noWrite s h hs)

/-- Invariant for a build run after `configResolved` has primed the
wrapper. -/
def PrimedBuild (s : PluginState) : Prop :=
  s.runCommand = .build ∧ s.hasHonoEntry = true ∧ s.wrapperPrimed = true

theorem pluginStep_buildStart_none_primed (s : PluginState) (hs : PrimedBuild s) :
    pluginStep s (.buildStart none) = s := by
  obtain ⟨hcmd, hentry, _⟩ := hs
  simp only [pluginStep]
  rw [if_neg (by simp [hcmd, hentry])]

theorem pluginStep_buildStart_some_primed (s : PluginState) (e : Nat) (hs : PrimedBuild s) :
    pluginStep s (.buildStart (some e)) =
      if e ∈ s.envWritten then s else { s with envWritten := e :: s.envWritten } := by
  obtain ⟨hcmd, hentry, hprimed⟩ := hs
  simp only [pluginStep]
  rw [if_neg (by simp [hcmd, hentry])]
  by_cases hmem : e ∈ s.envWritten
  · simp [hmem]
  · simp [hmem, hprimed]

theorem runHooks_buildStarts_primed (bs : List (Option Nat)) (s : PluginState)
    (hs : PrimedBuild s) :
    PrimedBuild (runHooks s (bs.map Hook.buildStart))
    ∧ (runHooks s (bs.map Hook.buildStart)).writeCount = s.writeCount
    ∧ (runHooks s (bs.map Hook.buildStart)).wrapperFile = s.wrapperFile
    ∧ ∀ e, e ∈ (runHooks s (bs.map Hook.buildStart)).envWritten ↔
        e ∈ s.envWritten ∨ some e ∈ bs := by
  induction bs generalizing s with
  | nil =>
    exact ⟨hs, rfl, rfl, fun e => by simp [runHooks]⟩
  | cons o rest ih =>
    have hrun : runHooks s ((o :: rest).map Hook.buildStart) =
        runHooks (pluginStep s (.buildStart o)) (rest.map Hook.buildStart) := rfl
    rw [hrun]
    cases o with
    | none =>
      rw [pluginStep_buildStart_none_primed s hs]
      obtain ⟨h1, h2, h3, h4⟩ := ih s hs
      refine ⟨h1, h2, h3, fun e => ?_⟩
      rw [h4 e]
      simp
    | some a =>
      rw [pluginStep_buildStart_some_primed s a hs]
      by_cases hmem : a ∈ s.envWritten
      · rw [if_pos hmem]
        obtain ⟨h1, h2, h3, h4⟩ := ih s hs
        refine ⟨h1, h2, h3, fun e => ?_⟩
        rw [h4 e]
        constructor
        · rintro (h | h)
          · exact Or.inl h
          · exact Or.inr (List.mem_cons_of_mem _ h)
        · rintro (h | h)
          · exact Or.inl h
          · rcases List.mem_cons.mp h with h | h
            · rcases Option.some_inj.mp h with rfl
              exact Or.inl hmem
            · exact Or.inr h
      · rw [if_neg hmem]
        have hs2 : PrimedBuild { s with envWritten := a :: s.envWritten } := hs
        obtain ⟨h1, h2, h3, h4⟩ := ih _ hs2
        refine ⟨h1, h2, h3, fun e => ?_⟩
        rw [h4 e]
        simp only [List.mem_cons]
        constructor
        · rintro ((h | h) | h)
          · exact Or.inr (Or.inl (by rw [h]))
          · exact Or.inl h
          · exact Or.inr (Or.inr h)
        · rintro (h | (h | h))
          · exact Or.inl (Or.inr h)
          · exact Or.inl (Or.inl (Option.some_inj.mp h))
          · exact Or.inr h

theorem handleRequest_ok {basePath : JStr} {env : LoadEnv} {req : NodeRequest}
    {u : SimpleURL} {evs : List Ev}
    (hu : falsyStr req.urlProp = false) (hm : falsyStr req.methodProp = false)
    (hr : reconstructURL req = some u) (hp : basePath.isPrefixOf u.pathname = true)
    (ht : tryBlock basePath env req u = .ok evs) :
    handleRequest basePath env req = evs := by
  unfold handleRequest
  rw [hu, hm]
  rw [if_neg (by simp)]
  rw [hr]
  show (if basePath.isPrefixOf u.pathname then
      (match tryBlock basePath env req u with
       | .ok evs => evs
       | .error _ => error500)
    else [Ev.next]) = evs
  rw [if_pos hp, ht]

theorem handleRequest_err {basePath : JStr} {env : LoadEnv} {req : NodeRequest}
    {u : SimpleURL}
    (hu : falsyStr req.urlProp = false) (hm : falsyStr req.methodProp = false)
    (hr : reconstructURL req = some u) (hp : basePath.isPrefixOf u.pathname = true)
    (ht : tryBlock basePath env req u = .error ()) :
    handleRequest basePath env req = error500 := by
  unfold handleRequest
  rw [hu, hm]
  rw [if_neg (by simp)]
  rw [hr]
  show (if basePath.isPrefixOf u.pathname then
      (match tryBlock basePath env req u with
       | .ok evs => evs
       | .error _ => error500)
    else [Ev.next]) = error500
  rw [if_pos hp, ht]

/-- C4: for every request whose URL or method is missing, or whose
reconstructed pathname does not start with `basePath`, the middleware
calls `next` exactly once and writes nothing to the response — the trace
of the invocation is exactly `[Ev.next]`. -/
theorem c4_passthrough_calls_next (basePath : JStr) (env : LoadEnv) (req : NodeRequest)
    (h : (req.urlProp = none ∨ req.methodProp = none)
       ∨ ∃ u, reconstructURL req = some u ∧ basePath.isPrefixOf u.pathname = false) :
    handleRequest basePath env req = [Ev.next] := by
  by_cases hf : (falsyStr req.urlProp || falsyStr req.methodProp) = true
  · unfold handleRequest
    rw [if_pos hf]
  · have hboth : falsyStr req.urlProp = false ∧ falsyStr req.methodProp = false := by
      constructor <;> (revert hf; cases falsyStr req.urlProp <;> cases falsyStr req.methodProp <;> simp)
    rcases h with (hmiss | hmiss) | ⟨u, hru, hp⟩
    · rw [hmiss] at hboth
      exact absurd hboth.1 (by simp [falsyStr])
    · rw [hmiss] at hboth
      exact absurd hboth.2 (by simp [falsyStr])
    · unfold handleRequest
      rw [if_neg hf]
      rw [hru]
      show (if basePath.isPrefixOf u.pathname then
          (match tryBlock basePath env req u with
           | .ok evs => evs
           | .error _ => error500)
        else [Ev.next]) = [Ev.next]
      rw [if_neg (by simp [hp])]

/-- C7: on every proxied request, `loadHonoApp` invalidates the module
node exactly when the module graph holds one for `/hono/index.ts`, and
when the loaded module's default export is not an object with a `fetch`
function — or loading itself throws — the middleware answers with the 500
response. -/
theorem c7_module_reload (basePath : JStr) (env : LoadEnv) (req : NodeRequest)
    (u : SimpleURL)
    (hu : falsyStr req.urlProp = false) (hm : falsyStr req.methodProp = false)
    (hr : reconstructURL req = some u)
    (hp : basePath.isPrefixOf u.pathname = true) :
    (loadHonoApp env).1 = env.moduleNode.isSome
    ∧ (∀ v, env.loadResult = .ok v → isHonoApp v = false →
        handleRequest basePath env req = error500)
    ∧ (env.loadResult = .error () →
        handleRequest basePath env req = error500) := by
  refine ⟨rfl, ?_, ?_⟩
  · intro v hv hnapp
    have hload : (loadHonoApp env).2 = .error () := by
      show (match env.loadResult with
        | .error e => Except.error e
        | .ok v =>
          match v with
          | .objWithFetch f => Except.ok f
          | _ => Except.error ()) = .error ()
      rw [hv]
      cases v with
      | objWithFetch f => simp [isHonoApp] at hnapp
      | undef => rfl
      | nullVal => rfl
      | nonObjVal => rfl
      | objNoFetch => rfl
    have htry : tryBlock basePath env req u = .error () := by
      unfold tryBlock
      rw [hload]
    exact handleRequest_err hu hm hr hp htry
  · intro hv
    have hload : (loadHonoApp env).2 = .error () := by
      show (match env.loadResult with
        | .error e => Except.error e
        | .ok v =>
          match v with
          | .objWithFetch f => Except.ok f
          | _ => Except.error ()) = .error ()
      rw [hv]
    have htry : tryBlock basePath env req u = .error () := by
      unfold tryBlock
      rw [hload]
    exact handleRequest_err hu hm hr hp htry

theorem forwardedRequest_fields {basePath : JStr} {req : NodeRequest} {u : SimpleURL}
    {fr : FetchRequest} (hfr : forwardedRequest basePath req u = .ok fr) :
    readBody req = .ok fr.bodyProp
    ∧ fr.url = targetURL basePath u
    ∧ fr.method = req.methodProp.getD []
    ∧ fr.headers = forwardHeaders req.headers := by
  unfold forwardedRequest at hfr
  cases hread : readBody req with
  | error e =>
    rw [hread] at hfr
    exact absurd hfr (by simp)
  | ok b =>
    rw [hread] at hfr
    have hfr2 : ({ url := targetURL basePath u
                   method := req.methodProp.getD []
                   headers := forwardHeaders req.headers
                   bodyProp := b } : FetchRequest) = fr := Except.ok.inj hfr
    subst hfr2
    exact ⟨rfl, rfl, rfl, rfl⟩

/-- C8: for every successfully forwarded request, the middleware trace is
exactly: every header of the backend `Response` copied via `setHeader`,
then `writeHead` with the `Response` status, then one `write` per body
chunk in order (none when the body is `null`), then `end`. -/
theorem c8_response_relay (basePath : JStr) (env : LoadEnv) (req : NodeRequest)
    (u : SimpleURL) (f : HonoFetch) (fr : FetchRequest) (resp : FetchResponse)
    (hu : falsyStr req.urlProp = false) (hm : falsyStr req.methodProp = false)
    (hr : reconstructURL req = some u)
    (hp : basePath.isPrefixOf u.pathname = true)
    (hload : (loadHonoApp env).2 = .ok f)
    (hfr : forwardedRequest basePath req u = .ok fr)
    (hresp : f fr = .ok resp) :
    handleRequest basePath env req = relayResponse resp
    ∧ relayResponse resp =
        resp.headers.map (fun kv => Ev.setHeader kv.1 kv.2)
          ++ [Ev.writeHead resp.status []]
          ++ (resp.bodyProp.getD []).map Ev.write
          ++ [Ev.endRes none] := by
  have htry : tryBlock basePath env req u = .ok (relayResponse resp) := by
    unfold tryBlock
    rw [hload]
    show (match forwardedRequest basePath req u with
      | .error e => Except.error e
      | .ok fr =>
        match f fr with
        | .error e => Except.error e
        | .ok resp => Except.ok (relayResponse resp)) = .ok (relayResponse resp)
    rw [hfr]
    show (match f fr with
      | .error e => Except.error e
      | .ok resp => Except.ok (relayResponse resp)) = .ok (relayResponse resp)
    rw [hresp]
  refine ⟨handleRequest_ok hu hm hr hp htry, ?_⟩
  cases hb : resp.bodyProp <;> simp [relayResponse, hb]

/-- C9: the body of the `Request` forwarded to the backend: `GET` and
`HEAD` requests carry none regardless of incoming data; any other method
carries the in-order concatenation of the incoming data chunks, or none
when no chunk arrived. -/
theorem c9_body_forwarding (basePath : JStr) (req : NodeRequest) (u : SimpleURL)
    (fr : FetchRequest)
    (hfr : forwardedRequest basePath req u = .ok fr) :
    ((req.methodProp = some (js "GET") ∨ req.methodProp = some (js "HEAD")) →
        fr.bodyProp = none)
    ∧ ((req.methodProp ≠ some (js "GET") ∧ req.methodProp ≠ some (js "HEAD")) →
        fr.bodyProp =
          (if req.bodyChunks.isEmpty then none else some req.bodyChunks.flatten)) := by
  obtain ⟨hread, -, -, -⟩ := forwardedRequest_fields hfr
  constructor
  · intro hgh
    have hro : readBody req = .ok none := by
      unfold readBody
      rcases hgh with h | h <;> simp [h]
    rw [hro] at hread
    exact (Except.ok.inj hread).symm
  · rintro ⟨hg, hh⟩
    have hcond : (req.methodProp == some (js "GET") || req.methodProp == some (js "HEAD"))
        = false := by
      simp only [Bool.or_eq_false_iff, beq_eq_false_iff_ne, ne_eq]
      exact ⟨hg, hh⟩
    unfold readBody at hread
    rw [hcond] at hread
    simp only [Bool.false_eq_true, if_false] at hread
    cases hbe : req.bodyError with
    | true =>
      rw [hbe] at hread
      exact absurd hread (by simp)
    | false =>
      rw [hbe] at hread
      simp only [Bool.false_eq_true, if_false] at hread
      cases hie : req.bodyChunks.isEmpty with
      | true =>
        rw [hie] at hread
        simp only [if_pos rfl] at hread ⊢
        exact (Except.ok.inj hread).symm
      | false =>
        rw [hie] at hread
        simp only [Bool.false_eq_true, if_false] at hread ⊢
        exact (Except.ok.inj hread).symm

/-- C1 amended: for every proxied request whose stripped remainder does
not begin with `//`, the `Request` handed to `fetch` keeps the origin and
query and has pathname equal to the remainder when that starts with a
single `/` (or `/` when empty; a remainder with no leading slash gains
one through relative resolution). -/
theorem c1_basePath_strip (basePath : JStr) (req : NodeRequest) (u : SimpleURL)
    (fr : FetchRequest)
    (hr : reconstructURL req = some u)
    (hp : basePath.isPrefixOf u.pathname = true)
    (hrem : (u.pathname.drop basePath.length).take 2 ≠ js "//")
    (hfr : forwardedRequest basePath req u = .ok fr) :
    fr.url.pathname =
      (if (u.pathname.drop basePath.length).isEmpty then js "/"
       else if (u.pathname.drop basePath.length).take 1 = js "/" then
         u.pathname.drop basePath.length
       else '/' :: u.pathname.drop basePath.length)
    ∧ fr.url.search = u.search
    ∧ fr.url.scheme = u.scheme ∧ fr.url.host = u.host
    ∧ origin fr.url = origin u := by
  obtain ⟨-, hurl, -, -⟩ := forwardedRequest_fields hfr
  have hr2 : mkURL (req.urlProp.getD []) (schemeOf req) (hostOf req) = some u := hr
  obtain ⟨hq, hsw⟩ := mkURL_wf hr2
  have hchar := targetURL_char basePath u hp hq hsw hrem
  rw [hurl, hchar]
  exact ⟨rfl, rfl, rfl, rfl, rfl⟩

/-- C1 counterexample: with `basePath = "/api"`, the request URL
`/api//evil.example/steal?q=1` reconstructs to a pathname starting with
the base path, but stripping leaves the protocol-relative reference
`//evil.example/steal`, so the forwarded URL's host becomes
`evil.example`: the origin changes and the forwarded pathname is not the
stripped remainder, contradicting the claim. -/
theorem c1_protocol_relative_cex :
    reconstructURL
        { urlProp := some (js "/api//evil.example/steal?q=1")
          methodProp := some (js "GET")
          headers := [(js "host", HeaderValue.str (js "localhost:5173"))]
          bodyChunks := [], bodyError := false } =
      some { scheme := js "http", host := js "localhost:5173"
             pathname := js "/api//evil.example/steal", search := js "?q=1" }
    ∧ (js "/api").isPrefixOf (js "/api//evil.example/steal") = true
    ∧ (targetURL (js "/api")
        { scheme := js "http", host := js "localhost:5173"
          pathname := js "/api//evil.example/steal", search := js "?q=1" }) =
      { scheme := js "http", host := js "evil.example"
        pathname := js "/steal", search := js "?q=1" }
    ∧ origin (targetURL (js "/api")
        { scheme := js "http", host := js "localhost:5173"
          pathname := js "/api//evil.example/steal", search := js "?q=1" })
      ≠ origin { scheme := js "http", host := js "localhost:5173"
                 pathname := js "/api//evil.example/steal", search := js "?q=1" }
    ∧ (targetURL (js "/api")
        { scheme := js "http", host := js "localhost:5173"
          pathname := js "/api//evil.example/steal", search := js "?q=1" }).pathname
      ≠ js "//evil.example/steal" := by
  decide

/-- C3 amended: the middleware takes the scheme to be the
`x-forwarded-proto` value itself when it is a string (even when empty),
the first non-empty entry when it is an array, and `http` only when the
header is `undefined` or an array without non-empty entries (`hostOf`
analogously with default `localhost:5173`); when the resulting scheme is
a well-formed URL scheme, the host is non-empty, and the request target
does not begin with `//`, reconstruction succeeds and the reconstructed
URL's origin is `scheme://authority`. -/
theorem c3_url_reconstruction (req : NodeRequest)
    (hs : validScheme (schemeOf req) = true)
    (hh : (hostOf req).isEmpty = false)
    (hu2 : (req.urlProp.getD []).take 2 ≠ js "//") :
    ∃ u, reconstructURL req = some u
      ∧ u.scheme = schemeOf req ∧ u.host = hostOf req
      ∧ origin u = schemeOf req ++ js "://" ++ hostOf req := by
  have hmk : mkURL (req.urlProp.getD []) (schemeOf req) (hostOf req) =
      some (resolveRef (req.urlProp.getD []) (schemeOf req) (hostOf req)) := by
    unfold mkURL
    rw [if_pos (by simp [hs, hh])]
  refine ⟨resolveRef (req.urlProp.getD []) (schemeOf req) (hostOf req), hmk,
    resolveRef_scheme_eq _ _ _, resolveRef_host_eq _ _ _ hu2, ?_⟩
  unfold origin
  rw [resolveRef_scheme_eq _ _ _, resolveRef_host_eq _ _ _ hu2]

/-- C3 counterexample: when `x-forwarded-proto` is present as the empty
string, `toSingleHeaderValue` returns it unchanged and `?? 'http'` does
not replace it (the empty string is not nullish), so the code uses `""`
as the scheme while the claim's first-non-empty-entry reading yields
`http`; `new URL` then throws outside the `try` block and the invocation
crashes instead of forwarding a request whose origin is
`http://localhost:5173`. -/
theorem c3_empty_proto_cex :
    schemeOf
        { urlProp := some (js "/api/x"), methodProp := some (js "GET")
          headers := [(js "x-forwarded-proto", HeaderValue.str []),
                      (js "host", HeaderValue.str (js "localhost:5173"))]
          bodyChunks := [], bodyError := false } = []
    ∧ specSchemeOf
        { urlProp := some (js "/api/x"), methodProp := some (js "GET")
          headers := [(js "x-forwarded-proto", HeaderValue.str []),
                      (js "host", HeaderValue.str (js "localhost:5173"))]
          bodyChunks := [], bodyError := false } = js "http"
    ∧ reconstructURL
        { urlProp := some (js "/api/x"), methodProp := some (js "GET")
          headers := [(js "x-forwarded-proto", HeaderValue.str []),
                      (js "host", HeaderValue.str (js "localhost:5173"))]
          bodyChunks := [], bodyError := false } = none
    ∧ handleRequest (js "/api") ⟨none, Except.ok JSValue.undef⟩
        { urlProp := some (js "/api/x"), methodProp := some (js "GET")
          headers := [(js "x-forwarded-proto", HeaderValue.str []),
                      (js "host", HeaderValue.str (js "localhost:5173"))]
          bodyChunks := [], bodyError := false } = [Ev.crash] := by
  refine ⟨rfl, rfl, rfl, ?_⟩
  rfl

/-- C6: in a build with `hono/index.ts` present, `configResolved` writes
the wrapper file and later `buildStart` hooks never write again (exactly
one write, file present); `closeBundle` for an environment whose
`buildStart` ran — or without an environment — deletes the file; with the
command `serve`/`test`/`unknown` or without the entry file, no run of
hooks ever writes the wrapper. -/
theorem c6_wrapper_lifecycle :
    (∀ bs : List (Option Nat),
        (runHooks (pluginStep (initState .build true) .configResolved)
          (bs.map Hook.buildStart)).writeCount = 1
      ∧ (runHooks (pluginStep (initState .build true) .configResolved)
          (bs.map Hook.buildStart)).wrapperFile = true)
    ∧ (∀ (bs : List (Option Nat)) (e : Nat), some e ∈ bs →
        (pluginStep (runHooks (pluginStep (initState .build true) .configResolved)
          (bs.map Hook.buildStart)) (.closeBundle (some e))).wrapperFile = false)
    ∧ (∀ s : PluginState, (pluginStep s (.closeBundle none)).wrapperFile = false)
    ∧ (∀ (cmd : RunCommand) (hasEntry : Bool) (hooks : List Hook),
        cmd ≠ .build ∨ hasEntry = false →
        (runHooks (initState cmd hasEntry) hooks).writeCount = 0
        ∧ (runHooks (initState cmd hasEntry) hooks).wrapperFile = false) := by
  have hcfg : pluginStep (initState .build true) .configResolved =
      { runCommand := .build, hasHonoEntry := true, wrapperPrimed := true
        envWritten := [], wrapperFile := true, writeCount := 1 } := by decide
  have hprimed : PrimedBuild (pluginStep (initState .build true) .configResolved) := by
    rw [hcfg]
    exact ⟨rfl, rfl, rfl⟩
  refine ⟨?_, ?_, ?_, ?_⟩
  · intro bs
    obtain ⟨-, h2, h3, -⟩ := runHooks_buildStarts_primed bs _ hprimed
    rw [h2, h3, hcfg]
    exact ⟨rfl, rfl⟩
  · intro bs e hmem
    obtain ⟨-, -, -, h4⟩ := runHooks_buildStarts_primed bs _ hprimed
    have hmem2 : e ∈ (runHooks (pluginStep (initState .build true) .configResolved)
        (bs.map Hook.buildStart)).envWritten := by
      rw [h4 e]
      exact Or.inr hmem
    show (if e ∈ (runHooks (pluginStep (initState .build true) .configResolved)
        (bs.map Hook.buildStart)).envWritten then
        removeWrapper { runHooks (pluginStep (initState .build true) .configResolved)
            (bs.map Hook.buildStart) with
          envWritten := (runHooks (pluginStep (initState .build true) .configResolved)
            (bs.map Hook.buildStart)).envWritten.erase e }
      else runHooks (pluginStep (initState .build true) .configResolved)
        (bs.map Hook.buildStart)).wrapperFile = false
    rw [if_pos hmem2]
    rfl
  · intro s
    rfl
  · intro cmd hasEntry hooks hc
    have hnw : NoWrite (initState cmd hasEntry) := ⟨hc, rfl, rfl⟩
    obtain ⟨-, hw, hf⟩ := runHooks_noWrite (initState cmd hasEntry) hooks hnw
    exact ⟨hw, hf⟩

/-- C10: when the source `package.json` parses to a JSON record,
`copyDeployFiles` writes it with its top-level `scripts` field exactly
`{ start: 'node server.js' }` and every other top-level field unchanged,
and copies each lockfile verbatim exactly when it exists; when
`package.json` fails to parse, or parses to something that is not a
non-array object, the call throws. -/
theorem c10_copy_deploy_files (wd : WorkDir) (fields : List (String × JSON)) :
    (wd.packageJson = some (.ok (.objVal fields)) →
      ∃ td, copyDeployFiles wd = .ok td
        ∧ td.packageJson = some (.objVal (setField fields "scripts" startScripts))
        ∧ lookupField (setField fields "scripts" startScripts) "scripts" = some startScripts
        ∧ (∀ key, key ≠ "scripts" →
            lookupField (setField fields "scripts" startScripts) key = lookupField fields key)
        ∧ td.packageLock = wd.packageLock ∧ td.pnpmLock = wd.pnpmLock
        ∧ td.yarnLock = wd.yarnLock ∧ td.bunLockb = wd.bunLockb)
    ∧ (wd.packageJson = some (.error ()) → copyDeployFiles wd = .error ())
    ∧ (∀ j, wd.packageJson = some (.ok j) → isJsonRecord j = false →
        copyDeployFiles wd = .error ()) := by
  refine ⟨?_, ?_, ?_⟩
  · intro hpkg
    refine ⟨{ packageJson := some (.objVal (setField fields "scripts" startScripts))
              packageLock := wd.packageLock, pnpmLock := wd.pnpmLock
              yarnLock := wd.yarnLock, bunLockb := wd.bunLockb }, ?_,
      rfl, lookupField_setField_self fields "scripts" startScripts,
      fun key hk => lookupField_setField_other fields "scripts" key startScripts hk,
      rfl, rfl, rfl, rfl⟩
    unfold copyDeployFiles
    rw [hpkg]
  · intro hpkg
    unfold copyDeployFiles
    rw [hpkg]
  · intro j hpkg hrec
    unfold copyDeployFiles
    rw [hpkg]
    cases j with
    | objVal fields2 => simp [isJsonRecord] at hrec
    | nullVal => rfl
    | boolVal b => rfl
    | numVal n => rfl
    | strVal s2 => rfl
    | arrVal elems => rfl

theorem c1_basePath_strip_witness :
    reconstructURL
        { urlProp := some (js "/api/hello?a=b"), methodProp := some (js "GET")
          headers := [(js "host", HeaderValue.str (js "localhost:5173"))]
          bodyChunks := [], bodyError := false } =
      some { scheme := js "http", host := js "localhost:5173"
             pathname := js "/api/hello", search := js "?a=b" }
    ∧ (js "/api").isPrefixOf (js "/api/hello") = true
    ∧ ((js "/api/hello").drop (js "/api").length).take 2 ≠ js "//"
    ∧ forwardedRequest (js "/api")
        { urlProp := some (js "/api/hello?a=b"), methodProp := some (js "GET")
          headers := [(js "host", HeaderValue.str (js "localhost:5173"))]
          bodyChunks := [], bodyError := false }
        { scheme := js "http", host := js "localhost:5173"
          pathname := js "/api/hello", search := js "?a=b" } =
      .ok { url := { scheme := js "http", host := js "localhost:5173"
                     pathname := js "/hello", search := js "?a=b" }
            method := js "GET"
            headers := [(js "host", js "localhost:5173")]
            bodyProp := none }
    ∧ ({ url := { scheme := js "http", host := js "localhost:5173"
                  pathname := js "/hello", search := js "?a=b" }
         method := js "GET"
         headers := [(js "host", js "localhost:5173")]
         bodyProp := none } : FetchRequest).url.pathname =
        (if (((js "/api/hello").drop (js "/api").length)).isEmpty then js "/"
         else if (((js "/api/hello").drop (js "/api").length)).take 1 = js "/" then
           ((js "/api/hello").drop (js "/api").length)
         else '/' :: ((js "/api/hello").drop (js "/api").length)) :=
  ⟨by decide, by decide, by decide, by rfl,
    (c1_basePath_strip (js "/api")
      { urlProp := some (js "/api/hello?a=b"), methodProp := some (js "GET")
        headers := [(js "host", HeaderValue.str (js "localhost:5173"))]
        bodyChunks := [], bodyError := false }
      { scheme := js "http", host := js "localhost:5173"
        pathname := js "/api/hello", search := js "?a=b" }
      { url := { scheme := js "http", host := js "localhost:5173"
                 pathname := js "/hello", search := js "?a=b" }
        method := js "GET"
        headers := [(js "host", js "localhost:5173")]
        bodyProp := none }
      (by decide) (by decide) (by decide) (by rfl)).1⟩

theorem c3_url_reconstruction_witness :
    validScheme (schemeOf
        { urlProp := some (js "/x"), methodProp := some (js "GET")
          headers := [(js "host", HeaderValue.str (js "example.test:8080"))]
          bodyChunks := [], bodyError := false }) = true
    ∧ (∃ u, reconstructURL
        { urlProp := some (js "/x"), methodProp := some (js "GET")
          headers := [(js "host", HeaderValue.str (js "example.test:8080"))]
          bodyChunks := [], bodyError := false } = some u
      ∧ u.scheme = schemeOf
          { urlProp := some (js "/x"), methodProp := some (js "GET")
            headers := [(js "host", HeaderValue.str (js "example.test:8080"))]
            bodyChunks := [], bodyError := false }
      ∧ u.host = hostOf
          { urlProp := some (js "/x"), methodProp := some (js "GET")
            headers := [(js "host", HeaderValue.str (js "example.test:8080"))]
            bodyChunks := [], bodyError := false }
      ∧ origin u = schemeOf
          { urlProp := some (js "/x"), methodProp := some (js "GET")
            headers := [(js "host", HeaderValue.str (js "example.test:8080"))]
            bodyChunks := [], bodyError := false } ++ js "://" ++ hostOf
          { urlProp := some (js "/x"), methodProp := some (js "GET")
            headers := [(js "host", HeaderValue.str (js "example.test:8080"))]
            bodyChunks := [], bodyError := false }) :=
  ⟨by decide,
    c3_url_reconstruction
      { urlProp := some (js "/x"), methodProp := some (js "GET")
        headers := [(js "host", HeaderValue.str (js "example.test:8080"))]
        bodyChunks := [], bodyError := false }
      (by decide) (by decide) (by decide)⟩

theorem c4_passthrough_calls_next_witness :
    ((none = (none : Option JStr) ∨ some (js "GET") = (none : Option JStr))
       ∨ ∃ u, reconstructURL
          { urlProp := none, methodProp := some (js "GET")
            headers := [], bodyChunks := [], bodyError := false } = some u
          ∧ (js "/api").isPrefixOf u.pathname = false)
    ∧ handleRequest (js "/api") ⟨none, Except.ok JSValue.undef⟩
        { urlProp := none, methodProp := some (js "GET")
          headers := [], bodyChunks := [], bodyError := false } = [Ev.next] :=
  ⟨Or.inl (Or.inl rfl),
    c4_passthrough_calls_next (js "/api") ⟨none, Except.ok JSValue.undef⟩
      { urlProp := none, methodProp := some (js "GET")
        headers := [], bodyChunks := [], bodyError := false }
      (Or.inl (Or.inl rfl))⟩

theorem c6_wrapper_lifecycle_witness :
    (runHooks (pluginStep (initState .build true) .configResolved)
      ([some 0, none].map Hook.buildStart)).writeCount = 1
    ∧ some 0 ∈ [some 0, none]
    ∧ (pluginStep (runHooks (pluginStep (initState .build true) .configResolved)
        ([some 0, none].map Hook.buildStart)) (.closeBundle (some 0))).wrapperFile = false
    ∧ (RunCommand.serve ≠ .build ∨ (true = false))
    ∧ (runHooks (initState .serve true)
        [Hook.configResolved, Hook.buildStart (some 0), Hook.closeBundle (some 0)]).writeCount
      = 0 :=
  ⟨(c6_wrapper_lifecycle.1 [some 0, none]).1,
    by decide,
    c6_wrapper_lifecycle.2.1 [some 0, none] 0 (by decide),
    Or.inl (by decide),
    (c6_wrapper_lifecycle.2.2.2 .serve true
      [Hook.configResolved, Hook.buildStart (some 0), Hook.closeBundle (some 0)]
      (Or.inl (by decide))).1⟩

theorem c7_module_reload_witness :
    falsyStr (some (js "/api/x")) = false
    ∧ reconstructURL
        { urlProp := some (js "/api/x"), methodProp := some (js "GET")
          headers := [], bodyChunks := [], bodyError := false } =
      some { scheme := js "http", host := js "localhost:5173"
             pathname := js "/api/x", search := [] }
    ∧ ((loadHonoApp ⟨some (), Except.ok JSValue.objNoFetch⟩).1 =
        (⟨some (), Except.ok JSValue.objNoFetch⟩ : LoadEnv).moduleNode.isSome
      ∧ (∀ v, (⟨some (), Except.ok JSValue.objNoFetch⟩ : LoadEnv).loadResult = .ok v →
          isHonoApp v = false →
          handleRequest (js "/api") ⟨some (), Except.ok JSValue.objNoFetch⟩
            { urlProp := some (js "/api/x"), methodProp := some (js "GET")
              headers := [], bodyChunks := [], bodyError := false } = error500)
      ∧ ((⟨some (), Except.ok JSValue.objNoFetch⟩ : LoadEnv).loadResult = .error () →
          handleRequest (js "/api") ⟨some (), Except.ok JSValue.objNoFetch⟩
            { urlProp := some (js "/api/x"), methodProp := some (js "GET")
              headers := [], bodyChunks := [], bodyError := false } = error500)) :=
  ⟨by decide, by decide,
    c7_module_reload (js "/api") ⟨some (), Except.ok JSValue.objNoFetch⟩
      { urlProp := some (js "/api/x"), methodProp := some (js "GET")
        headers := [], bodyChunks := [], bodyError := false }
      { scheme := js "http", host := js "localhost:5173"
        pathname := js "/api/x", search := [] }
      (by decide) (by decide) (by decide) (by decide)⟩

theorem c8_response_relay_witness :
    (loadHonoApp ⟨none, Except.ok (JSValue.objWithFetch
        (fun _ => Except.ok ⟨204, [(js "x-served-by", js "hono")], some [js "he", js "llo"]⟩))⟩).2
      = .ok (fun _ => Except.ok ⟨204, [(js "x-served-by", js "hono")], some [js "he", js "llo"]⟩)
    ∧ handleRequest (js "/api")
        ⟨none, Except.ok (JSValue.objWithFetch
          (fun _ => Except.ok ⟨204, [(js "x-served-by", js "hono")], some [js "he", js "llo"]⟩))⟩
        { urlProp := some (js "/api/x"), methodProp := some (js "GET")
          headers := [], bodyChunks := [], bodyError := false } =
      relayResponse ⟨204, [(js "x-served-by", js "hono")], some [js "he", js "llo"]⟩ :=
  ⟨by rfl,
    (c8_response_relay (js "/api")
      ⟨none, Except.ok (JSValue.objWithFetch
        (fun _ => Except.ok ⟨204, [(js "x-served-by", js "hono")], some [js "he", js "llo"]⟩))⟩
      { urlProp := some (js "/api/x"), methodProp := some (js "GET")
        headers := [], bodyChunks := [], bodyError := false }
      { scheme := js "http", host := js "localhost:5173"
        pathname := js "/api/x", search := [] }
      (fun _ => Except.ok ⟨204, [(js "x-served-by", js "hono")], some [js "he", js "llo"]⟩)
      { url := { scheme := js "http", host := js "localhost:5173"
                 pathname := js "/x", search := [] }
        method := js "GET", headers := [], bodyProp := none }
      ⟨204, [(js "x-served-by", js "hono")], some [js "he", js "llo"]⟩
      (by decide) (by decide) (by decide) (by decide) (by rfl) (by rfl) (by rfl)).1⟩

theorem c9_body_forwarding_witness :
    forwardedRequest (js "/api")
        { urlProp := some (js "/api/x"), methodProp := some (js "POST")
          headers := [], bodyChunks := [js "ab", js "cd"], bodyError := false }
        { scheme := js "http", host := js "localhost:5173"
          pathname := js "/api/x", search := [] } =
      .ok { url := { scheme := js "http", host := js "localhost:5173"
                     pathname := js "/x", search := [] }
            method := js "POST", headers := []
            bodyProp := some (js "abcd") }
    ∧ ((some (js "POST") ≠ some (js "GET") ∧ some (js "POST") ≠ some (js "HEAD")) →
        ({ url := { scheme := js "http", host := js "localhost:5173"
                    pathname := js "/x", search := [] }
           method := js "POST", headers := []
           bodyProp := some (js "abcd") } : FetchRequest).bodyProp =
          (if ([js "ab", js "cd"] : List JStr).isEmpty then none
           else some ([js "ab", js "cd"] : List JStr).flatten)) :=
  ⟨by rfl,
    (c9_body_forwarding (js "/api")
      { urlProp := some (js "/api/x"), methodProp := some (js "POST")
        headers := [], bodyChunks := [js "ab", js "cd"], bodyError := false }
      { scheme := js "http", host := js "localhost:5173"
        pathname := js "/api/x", search := [] }
      { url := { scheme := js "http", host := js "localhost:5173"
                 pathname := js "/x", search := [] }
        method := js "POST", headers := []
        bodyProp := some (js "abcd") }
      (by rfl)).2⟩

theorem c10_copy_deploy_files_witness :
    ({ packageJson := some (Except.ok (JSON.objVal
         [("name", JSON.strVal "demo"), ("scripts", JSON.objVal [("dev", JSON.strVal "vite")])])),
       packageLock := some "lockdata", pnpmLock := none, yarnLock := none,
       bunLockb := none } : WorkDir).packageJson =
      some (Except.ok (JSON.objVal
        [("name", JSON.strVal "demo"), ("scripts", JSON.objVal [("dev", JSON.strVal "vite")])]))
    ∧ (∃ td, copyDeployFiles
        { packageJson := some (Except.ok (JSON.objVal
            [("name", JSON.strVal "demo"), ("scripts", JSON.objVal [("dev", JSON.strVal "vite")])])),
          packageLock := some "lockdata", pnpmLock := none, yarnLock := none,
          bunLockb := none } = .ok td
      ∧ td.packageJson = some (.objVal (setField
          [("name", JSON.strVal "demo"), ("scripts", JSON.objVal [("dev", JSON.strVal "vite")])]
          "scripts" startScripts))
      ∧ lookupField (setField
          [("name", JSON.strVal "demo"), ("scripts", JSON.objVal [("dev", JSON.strVal "vite")])]
          "scripts" startScripts) "scripts" = some startScripts
      ∧ (∀ key, key ≠ "scripts" →
          lookupField (setField
            [("name", JSON.strVal "demo"), ("scripts", JSON.objVal [("dev", JSON.strVal "vite")])]
            "scripts" startScripts) key =
          lookupField
            [("name", JSON.strVal "demo"), ("scripts", JSON.objVal [("dev", JSON.strVal "vite")])]
            key)
      ∧ td.packageLock = some "lockdata"
      ∧ td.pnpmLock = none ∧ td.yarnLock = none ∧ td.bunLockb = none) := by
  refine ⟨rfl, ?_⟩
  obtain ⟨td, h1, h2, h3, h4, h5, h6, h7, h8⟩ :=
    (c10_copy_deploy_files
      { packageJson := some (Except.ok (JSON.objVal
          [("name", JSON.strVal "demo"), ("scripts", JSON.objVal [("dev", JSON.strVal "vite")])])),
        packageLock := some "lockdata", pnpmLock := none, yarnLock := none,
        bunLockb := none }
      [("name", JSON.strVal "demo"), ("scripts", JSON.objVal [("dev", JSON.strVal "vite")])]).1
      rfl
  exact ⟨td, h1, h2, h3, h4, h5, h6, h7, h8⟩

theorem forwardHeaderValue_arr (l : List JStr) :
    forwardHeaderValue (some (.arr l)) =
      (if (l.filter (fun entry => !entry.isEmpty)).isEmpty then none
       else some (joinSep (js ", ") (l.filter (fun entry => !entry.isEmpty)))) := by
  by_cases hp : (l.filter (fun entry => !entry.isEmpty)).isEmpty
  · have htv : toHeaderValue (some (.arr l)) = none := by
      show (if (l.filter (fun entry => !entry.isEmpty)).isEmpty then none
        else some (joinSep (js ", ") (l.filter (fun entry => !entry.isEmpty)))) = none
      rw [if_pos hp]
    unfold forwardHeaderValue
    rw [htv, if_pos hp]
  · cases hparts : l.filter (fun entry => !entry.isEmpty) with
    | nil =>
      rw [hparts] at hp
      simp at hp
    | cons p rest =>
      have hpmem : p ∈ l.filter (fun entry => !entry.isEmpty) := by
        rw [hparts]
        exact List.mem_cons_self p rest
      have hpne : p ≠ [] := by
        have := (List.mem_filter.mp hpmem).2
        simpa using this
      have hjoinEmpty : (joinSep (js ", ") (p :: rest)).isEmpty = false := by
        simpa using joinSep_ne_nil (js ", ") p rest hpne
      have htv : toHeaderValue (some (.arr l)) =
          some (joinSep (js ", ") (p :: rest)) := by
        show (if (l.filter (fun entry => !entry.isEmpty)).isEmpty then none
          else some (joinSep (js ", ") (l.filter (fun entry => !entry.isEmpty)))) = _
        rw [hparts, if_neg (by simp)]
      rw [if_neg (show ¬(((p :: rest) : List JStr).isEmpty = true) by simp)]
      unfold forwardHeaderValue
      rw [htv]
      show (if (joinSep (js ", ") (p :: rest)).isEmpty then none
        else some (joinSep (js ", ") (p :: rest))) = _
      rw [if_neg (by simp [hjoinEmpty])]

theorem forwardHeaders_go (hs : List (JStr × HeaderValue)) (acc : List (JStr × JStr))
    (hdisj : ∀ kv ∈ hs, ∀ av ∈ acc, av.1 ≠ kv.1.map Char.toLower)
    (hnd : (hs.map (fun kv => kv.1.map Char.toLower)).Nodup) :
    hs.foldl
        (fun acc kv =>
          match forwardHeaderValue (some kv.2) with
          | some v => headersSet acc kv.1 v
          | none => acc) acc
      = acc ++ hs.filterMap
          (fun kv => (forwardHeaderValue (some kv.2)).map
            (fun v => (kv.1.map Char.toLower, v))) := by
  induction hs generalizing acc with
  | nil => simp
  | cons kv rest ih =>
    simp only [List.foldl_cons, List.filterMap_cons]
    cases hval : forwardHeaderValue (some kv.2) with
    | none =>
      have hdisj2 : ∀ kv2 ∈ rest, ∀ av ∈ acc, av.1 ≠ kv2.1.map Char.toLower :=
        fun kv2 h2 av hav => hdisj kv2 (List.mem_cons_of_mem kv h2) av hav
      exact ih acc hdisj2 (by simpa using hnd.of_cons)
    | some v =>
      show List.foldl
          (fun acc kv =>
            match forwardHeaderValue (some kv.2) with
            | some v => headersSet acc kv.1 v
            | none => acc)
          (headersSet acc kv.1 v) rest =
        acc ++ ((kv.1.map Char.toLower, v) :: List.filterMap
          (fun kv => Option.map (fun v => (kv.1.map Char.toLower, v))
            (forwardHeaderValue (some kv.2))) rest)
      have hany : (acc.any (fun av => av.1 == kv.1.map Char.toLower)) = false := by
        rw [List.any_eq_false]
        intro av hav
        simpa using hdisj kv (List.mem_cons_self kv rest) av hav
      have hset : headersSet acc kv.1 v = acc ++ [(kv.1.map Char.toLower, v)] := by
        simp [headersSet, hany]
      rw [hset]
      rw [List.map_cons] at hnd
      obtain ⟨hhead, htail⟩ := List.nodup_cons.mp hnd
      have hdisj2 : ∀ kv2 ∈ rest, ∀ av ∈ acc ++ [(kv.1.map Char.toLower, v)],
          av.1 ≠ kv2.1.map Char.toLower := by
        intro kv2 h2 av hav
        rcases List.mem_append.mp hav with hav | hav
        · exact hdisj kv2 (List.mem_cons_of_mem kv h2) av hav
        · rcases List.mem_singleton.mp hav with rfl
          intro hcontra
          have hc2 : kv.1.map Char.toLower = kv2.1.map Char.toLower := hcontra
          have hmem : kv.1.map Char.toLower ∈
              rest.map (fun kv => kv.1.map Char.toLower) := by
            rw [hc2]
            exact List.mem_map_of_mem _ h2
          exact hhead hmem
      rw [ih _ hdisj2 htail]
      simp

/-- C5: for every proxied request whose header names (lowercased, as Node
already delivers them) are distinct, the headers of the `Request` handed
to `fetch` are exactly the incoming entries mapped through the
per-header marshalling rule, in order: a non-empty string value is
forwarded unchanged; an array value is forwarded as its non-empty
entries joined with `", "` when any exist; an `undefined`, empty-string,
or all-empty-array value is not forwarded at all. -/
theorem c5_header_marshalling (basePath : JStr) (req : NodeRequest) (u : SimpleURL)
    (fr : FetchRequest)
    (hfr : forwardedRequest basePath req u = .ok fr)
    (hnd : (req.headers.map (fun kv => kv.1.map Char.toLower)).Nodup) :
    fr.headers = req.headers.filterMap
        (fun kv => (forwardHeaderValue (some kv.2)).map
          (fun v => (kv.1.map Char.toLower, v)))
    ∧ (∀ s : JStr, forwardHeaderValue (some (.str s)) =
        (if s.isEmpty then none else some s))
    ∧ (∀ l : List JStr, forwardHeaderValue (some (.arr l)) =
        (if (l.filter (fun entry => !entry.isEmpty)).isEmpty then none
         else some (joinSep (js ", ") (l.filter (fun entry => !entry.isEmpty)))))
    ∧ forwardHeaderValue none = none := by
  obtain ⟨-, -, -, hh⟩ := forwardedRequest_fields hfr
  refine ⟨?_, fun s => rfl, forwardHeaderValue_arr, rfl⟩
  rw [hh]
  show forwardHeaders req.headers = _
  unfold forwardHeaders
  simpa using forwardHeaders_go req.headers [] (by simp) hnd

theorem c5_header_marshalling_witness :
    forwardedRequest (js "/api")
        { urlProp := some (js "/api/x"), methodProp := some (js "GET")
          headers := [(js "Host", HeaderValue.str (js "localhost:5173")),
                      (js "X-Empty", HeaderValue.str []),
                      (js "Accept", HeaderValue.arr
                        [[], js "text/html", js "application/json"]),
                      (js "X-Blank", HeaderValue.arr [[], []])]
          bodyChunks := [], bodyError := false }
        { scheme := js "http", host := js "localhost:5173"
          pathname := js "/api/x", search := [] } =
      .ok { url := { scheme := js "http", host := js "localhost:5173"
                     pathname := js "/x", search := [] }
            method := js "GET"
            headers := [(js "host", js "localhost:5173"),
                        (js "accept", js "text/html, application/json")]
            bodyProp := none }
    ∧ ([(js "Host", HeaderValue.str (js "localhost:5173")),
        (js "X-Empty", HeaderValue.str []),
        (js "Accept", HeaderValue.arr [[], js "text/html", js "application/json"]),
        (js "X-Blank", HeaderValue.arr [[], []])].map
          (fun kv => kv.1.map Char.toLower)).Nodup
    ∧ ({ url := { scheme := js "http", host := js "localhost:5173"
                  pathname := js "/x", search := [] }
         method := js "GET"
         headers := [(js "host", js "localhost:5173"),
                     (js "accept", js "text/html, application/json")]
         bodyProp := none } : FetchRequest).headers =
      [(js "Host", HeaderValue.str (js "localhost:5173")),
       (js "X-Empty", HeaderValue.str []),
       (js "Accept", HeaderValue.arr [[], js "text/html", js "application/json"]),
       (js "X-Blank", HeaderValue.arr [[], []])].filterMap
        (fun kv => (forwardHeaderValue (some kv.2)).map
          (fun v => (kv.1.map Char.toLower, v))) :=
  ⟨by rfl, by decide,
    (c5_header_marshalling (js "/api")
      { urlProp := some (js "/api/x"), methodProp := some (js "GET")
        headers := [(js "Host", HeaderValue.str (js "localhost:5173")),
                    (js "X-Empty", HeaderValue.str []),
                    (js "Accept", HeaderValue.arr
                      [[], js "text/html", js "application/json"]),
                    (js "X-Blank", HeaderValue.arr [[], []])]
        bodyChunks := [], bodyError := false }
      { scheme := js "http", host := js "localhost:5173"
        pathname := js "/api/x", search := [] }
      { url := { scheme := js "http", host := js "localhost:5173"
                 pathname := js "/x", search := [] }
        method := js "GET"
        headers := [(js "host", js "localhost:5173"),
                    (js "accept", js "text/html, application/json")]
        bodyProp := none }
      (by rfl) (by decide)).1⟩

/-- A backend `Response` body stream as the relay loop observes it: the
chunks the reader yields, and whether the next `read()` rejects after
them (`failsAfter`) instead of completing. -/
structure StreamBody where
  chunks : List JStr
  failsAfter : Bool
deriving DecidableEq

/-- A backend `Response` with a streaming body: status, headers (as the
`Headers` iteration yields them) and a body that is `null` or a
`StreamBody`. -/
structure StreamResponse where
  status : Nat
  headers : List (JStr × JStr)
  bodyProp : Option StreamBody
deriving DecidableEq

/-- `app.fetch` over streaming responses. -/
abbrev StreamFetch := FetchRequest → Except Unit StreamResponse

/-- A JS value as classified by `isHonoApp`, with a streaming `fetch`. -/
inductive JSValueS where
  | undef
  | nullVal
  | nonObjVal
  | objNoFetch
  | objWithFetch (fetch : StreamFetch)

/-- Source `isHonoApp`, over `JSValueS`. -/
def isHonoAppS : JSValueS → Bool
  | .objWithFetch _ => true
  | _ => false

/-- The resolved dev-server environment, with a streaming app. -/
structure LoadEnvS where
  moduleNode : Option Unit
  loadResult : Except Unit JSValueS

/-- Source `loadHonoApp` over the streaming environment. -/
def loadHonoAppS (env : LoadEnvS) : Bool × Except Unit StreamFetch :=
  (env.moduleNode.isSome,
    match env.loadResult with
    | .error e => .error e
    | .ok v =>
      match v with
      | .objWithFetch f => .ok f
      | _ => .error ())

/-- The pre-relay part of the `try` block with a streaming app: load the
app, build the `Request`, invoke `fetch`; `.error` when any of these
throws before anything is written to the response. -/
def tryBlockS (basePath : JStr) (env : LoadEnvS) (req : NodeRequest) (u : SimpleURL) :
    Except Unit StreamResponse :=
  match (loadHonoAppS env).2 with
  | .error e => .error e
  | .ok app =>
    match forwardedRequest basePath req u with
    | .error e => .error e
    | .ok fr => app fr

/-- The remainder of `handleRequest`'s `try`/`catch` given the pre-relay
outcome, tracking the `ServerResponse` headers-sent state.  A failure
before the relay reaches the catch with no headers sent, so
`writeHead(500)` succeeds and the JSON error body is written.  A `read()`
rejection during the relay reaches the catch after
`res.writeHead(response.status)` has run, so the catch's `writeHead(500)`
itself throws `ERR_HTTP_HEADERS_SENT`: the invocation ends as an unhandled
rejection (`.crash`) after the already-delivered chunks, with no 500
response and no `end`. -/
def relayPhase : Except Unit StreamResponse → List Ev
  | .error _ => error500
  | .ok resp =>
    match resp.bodyProp with
    | none =>
      resp.headers.map (fun kv => Ev.setHeader kv.1 kv.2)
        ++ [Ev.writeHead resp.status []] ++ [Ev.endRes none]
    | some body =>
      if body.failsAfter then
        resp.headers.map (fun kv => Ev.setHeader kv.1 kv.2)
          ++ [Ev.writeHead resp.status []]
          ++ body.chunks.map Ev.write ++ [Ev.crash]
      else
        resp.headers.map (fun kv => Ev.setHeader kv.1 kv.2)
          ++ [Ev.writeHead resp.status []]
          ++ body.chunks.map Ev.write ++ [Ev.endRes none]

/-- Source `handleRequest` refined with streaming response bodies:
identical to `handleRequest` up to the `try` block, whose outcome is
rendered by `relayPhase`. -/
def handleRequestS (basePath : JStr) (env : LoadEnvS) (req : NodeRequest) : List Ev :=
  if falsyStr req.urlProp || falsyStr req.methodProp then [.next]
  else
    match reconstructURL req with
    | none => [.crash]
    | some u =>
      if basePath.isPrefixOf u.pathname then relayPhase (tryBlockS basePath env req u)
      else [.next]

theorem handleRequestS_proxied {basePath : JStr} {env : LoadEnvS} {req : NodeRequest}
    {u : SimpleURL}
    (hu : falsyStr req.urlProp = false) (hm : falsyStr req.methodProp = false)
    (hr : reconstructURL req = some u) (hp : basePath.isPrefixOf u.pathname = true) :
    handleRequestS basePath env req = relayPhase (tryBlockS basePath env req u) := by
  unfold handleRequestS
  rw [hu, hm]
  rw [if_neg (by simp)]
  rw [hr]
  show (if basePath.isPrefixOf u.pathname then relayPhase (tryBlockS basePath env req u)
    else [Ev.next]) = relayPhase (tryBlockS basePath env req u)
  rw [if_pos hp]

/-- C2 amended: on a proxied request, a throw before anything is written —
loading the backend module, building the `Request` (reading the body), or
`fetch` itself — yields exactly the 500 `application/json`
`Internal server error` response, and `next` is never called.  When the
response body stream fails during the relay instead, the status has
already been written, so the catch's `writeHead(500)` throws
(`ERR_HTTP_HEADERS_SENT`): the trace is the headers, the original status,
the delivered chunks and an unhandled rejection — no 500 response, no
JSON error body, and still no `next`. -/
theorem c2_error_to_500 (basePath : JStr) (env : LoadEnvS) (req : NodeRequest)
    (u : SimpleURL)
    (hu : falsyStr req.urlProp = false) (hm : falsyStr req.methodProp = false)
    (hr : reconstructURL req = some u)
    (hp : basePath.isPrefixOf u.pathname = true) :
    (tryBlockS basePath env req u = .error () →
      handleRequestS basePath env req = error500
      ∧ Ev.next ∉ handleRequestS basePath env req)
    ∧ (∀ (resp : StreamResponse) (body : StreamBody),
        tryBlockS basePath env req u = .ok resp →
        resp.bodyProp = some body → body.failsAfter = true →
        handleRequestS basePath env req =
          resp.headers.map (fun kv => Ev.setHeader kv.1 kv.2)
            ++ [Ev.writeHead resp.status []]
            ++ body.chunks.map Ev.write ++ [Ev.crash]
        ∧ Ev.writeHead 500 [(js "Content-Type", js "application/json")]
            ∉ handleRequestS basePath env req
        ∧ Ev.endRes (some errorBody) ∉ handleRequestS basePath env req
        ∧ Ev.next ∉ handleRequestS basePath env req) := by
  constructor
  · intro he
    have h1 : handleRequestS basePath env req = error500 := by
      rw [handleRequestS_proxied hu hm hr hp, he]
      rfl
    refine ⟨h1, ?_⟩
    rw [h1]
    decide
  · intro resp body hok hbody hfail
    have h1 : handleRequestS basePath env req =
        resp.headers.map (fun kv => Ev.setHeader kv.1 kv.2)
          ++ [Ev.writeHead resp.status []]
          ++ body.chunks.map Ev.write ++ [Ev.crash] := by
      rw [handleRequestS_proxied hu hm hr hp, hok]
      show (match resp.bodyProp with
        | none =>
          resp.headers.map (fun kv : JStr × JStr => Ev.setHeader kv.1 kv.2)
            ++ [Ev.writeHead resp.status []] ++ [Ev.endRes none]
        | some body =>
          if body.failsAfter then
            resp.headers.map (fun kv : JStr × JStr => Ev.setHeader kv.1 kv.2)
              ++ [Ev.writeHead resp.status []]
              ++ body.chunks.map Ev.write ++ [Ev.crash]
          else
            resp.headers.map (fun kv : JStr × JStr => Ev.setHeader kv.1 kv.2)
              ++ [Ev.writeHead resp.status []]
              ++ body.chunks.map Ev.write ++ [Ev.endRes none]) = _
      rw [hbody]
      show (if body.failsAfter then
          resp.headers.map (fun kv : JStr × JStr => Ev.setHeader kv.1 kv.2)
            ++ [Ev.writeHead resp.status []]
            ++ body.chunks.map Ev.write ++ [Ev.crash]
        else
          resp.headers.map (fun kv : JStr × JStr => Ev.setHeader kv.1 kv.2)
            ++ [Ev.writeHead resp.status []]
            ++ body.chunks.map Ev.write ++ [Ev.endRes none]) = _
      rw [hfail]
      rw [if_pos rfl]
    refine ⟨h1, ?_, ?_, ?_⟩ <;> rw [h1] <;> simp [errorBody, js]

/-- C2 counterexample: a backend response whose body stream rejects after
one chunk.  The middleware has already run `writeHead(200)` when the
relay throw reaches the catch, so `writeHead(500)` throws and the trace
ends in an unhandled rejection: no 500 status, no `application/json`
error body, no `end` — the claim's 500 JSON response is not produced for
this relay-phase throw. -/
theorem c2_relay_failure_cex :
    handleRequestS (js "/api")
        ⟨none, Except.ok (JSValueS.objWithFetch (fun _ =>
          Except.ok { status := 200
                      headers := [(js "content-type", js "text/plain")]
                      bodyProp := some { chunks := [js "par"], failsAfter := true } }))⟩
        { urlProp := some (js "/api/x"), methodProp := some (js "GET")
          headers := [], bodyChunks := [], bodyError := false } =
      [Ev.setHeader (js "content-type") (js "text/plain"), Ev.writeHead 200 [],
       Ev.write (js "par"), Ev.crash]
    ∧ handleRequestS (js "/api")
        ⟨none, Except.ok (JSValueS.objWithFetch (fun _ =>
          Except.ok { status := 200
                      headers := [(js "content-type", js "text/plain")]
                      bodyProp := some { chunks := [js "par"], failsAfter := true } }))⟩
        { urlProp := some (js "/api/x"), methodProp := some (js "GET")
          headers := [], bodyChunks := [], bodyError := false } ≠ error500
    ∧ Ev.writeHead 500 [(js "Content-Type", js "application/json")]
        ∉ handleRequestS (js "/api")
          ⟨none, Except.ok (JSValueS.objWithFetch (fun _ =>
            Except.ok { status := 200
                        headers := [(js "content-type", js "text/plain")]
                        bodyProp := some { chunks := [js "par"], failsAfter := true } }))⟩
          { urlProp := some (js "/api/x"), methodProp := some (js "GET")
            headers := [], bodyChunks := [], bodyError := false }
    ∧ Ev.endRes (some errorBody)
        ∉ handleRequestS (js "/api")
          ⟨none, Except.ok (JSValueS.objWithFetch (fun _ =>
            Except.ok { status := 200
                        headers := [(js "content-type", js "text/plain")]
                        bodyProp := some { chunks := [js "par"], failsAfter := true } }))⟩
          { urlProp := some (js "/api/x"), methodProp := some (js "GET")
            headers := [], bodyChunks := [], bodyError := false } := by
  refine ⟨rfl, ?_, ?_, ?_⟩ <;> decide

theorem c2_error_to_500_witness :
    tryBlockS (js "/api") ⟨none, Except.ok JSValueS.undef⟩
        { urlProp := some (js "/api/x"), methodProp := some (js "GET")
          headers := [], bodyChunks := [], bodyError := false }
        { scheme := js "http", host := js "localhost:5173"
          pathname := js "/api/x", search := [] } = .error ()
    ∧ handleRequestS (js "/api") ⟨none, Except.ok JSValueS.undef⟩
        { urlProp := some (js "/api/x"), methodProp := some (js "GET")
          headers := [], bodyChunks := [], bodyError := false } = error500
    ∧ Ev.next ∉ handleRequestS (js "/api") ⟨none, Except.ok JSValueS.undef⟩
        { urlProp := some (js "/api/x"), methodProp := some (js "GET")
          headers := [], bodyChunks := [], bodyError := false } :=
  ⟨by rfl,
    ((c2_error_to_500 (js "/api") ⟨none, Except.ok JSValueS.undef⟩
      { urlProp := some (js "/api/x"), methodProp := some (js "GET")
        headers := [], bodyChunks := [], bodyError := false }
      { scheme := js "http", host := js "localhost:5173"
        pathname := js "/api/x", search := [] }
      (by decide) (by decide) (by decide) (by decide)).1 (by rfl)).1,
    ((c2_error_to_500 (js "/api") ⟨none, Except.ok JSValueS.undef⟩
      { urlProp := some (js "/api/x"), methodProp := some (js "GET")
        headers := [], bodyChunks := [], bodyError := false }
      { scheme := js "http", host := js "localhost:5173"
        pathname := js "/api/x", search := [] }
      (by decide) (by decide) (by decide) (by decide)).1 (by rfl)).2⟩
